import Mathlib

/-!
Shallow embedding of the attendance backend in src/server.js
(schemas, POST /attendance/mark, GET /reports/summary) and
verification of the frozen claims about it.
-/

namespace Attendance

/-- A stored attendance entry, as in attendanceSchema.entries:
studentId (ObjectId, modelled as a string), present (boolean),
remarks (string, default ""). -/
structure Entry where
  studentId : String
  present : Bool
  remarks : String
  deriving Repr, DecidableEq

/-- A stored attendance record: date ("YYYY-MM-DD" string), className,
entries. The (date, className) pair is unique by the compound index. -/
structure AttendanceRecord where
  date : String
  className : String
  entries : List Entry
  deriving Repr, DecidableEq

/-- The attendance collection, in natural (insertion) order. -/
abbrev Ledger := List AttendanceRecord

/-- A roster student as far as the report needs it: _id and name
(plus className for completeness of studentSchema's required fields). -/
structure Student where
  _id : String
  name : String
  className : String
  deriving Repr, DecidableEq

/-- A raw request entry as received in the JSON body of
POST /attendance/mark, before validation: studentId may be missing
(none) or an arbitrary string (the empty string is falsy in JS),
and present may be missing or not a boolean (none). -/
structure RawEntry where
  studentId : Option String
  present : Option Bool
  remarks : Option String
  deriving Repr, DecidableEq

/-- The handler's per-entry validation
(`!entry.studentId || typeof entry.present !== 'boolean'` negated):
studentId must be a present, non-empty (truthy) string and present
must be an actual boolean. -/
def validEntry (e : RawEntry) : Bool :=
  match e.studentId, e.present with
  | some s, some _ => !(s = "")
  | _, _ => false

/-- Conversion of a validated raw entry to a stored entry
(remarks defaults to "" per the schema). -/
def toEntry (e : RawEntry) : Entry :=
  { studentId := e.studentId.getD ""
    present := e.present.getD false
    remarks := e.remarks.getD "" }

/-- Result of POST /attendance/mark. -/
inductive MarkResult where
  | ok
  | badRequest (msg : String)
  deriving Repr, DecidableEq

/-- Whether a mark result is a 400 validation failure. -/
def MarkResult.isBadRequest : MarkResult → Prop
  | .ok => False
  | .badRequest _ => True

/-- Whether a record matches the (date, className) key. -/
def keyMatch (d c : String) (r : AttendanceRecord) : Bool :=
  r.date = d && r.className = c

/-- Attendance.findOneAndUpdate({date, className},
{date, className, entries}, {upsert: true}): replace the first record
matching the key (setting date, className and entries), or insert a
new record if none matches. -/
def upsert (d c : String) (es : List Entry) : Ledger → Ledger
  | [] => [⟨d, c, es⟩]
  | r :: rs =>
    if keyMatch d c r then ⟨d, c, es⟩ :: rs
    else r :: upsert d c es rs

/-- A JS-falsy optional string: absent or empty. -/
def falsyStr : Option String → Bool
  | none => true
  | some s => s = ""

/-- The POST /attendance/mark handler. `!date || !className || !entries`
rejects a missing field (note an empty entries array is truthy in JS and
passes); then each entry is validated, rejecting the whole call before
any write; then the record for (date, className) is upserted with the
new entries, wholly replacing any previous entries. -/
def markHandler (date className : Option String)
    (entries : Option (List RawEntry)) (l : Ledger) :
    MarkResult × Ledger :=
  if falsyStr date || falsyStr className || entries.isNone then
    (.badRequest "Date, className and entries are required", l)
  else
    let d := date.getD ""
    let c := className.getD ""
    let es := entries.getD []
    if es.all validEntry then
      (.ok, upsert d c (es.map toEntry) l)
    else
      (.badRequest "Invalid entry format", l)

/-- At most one record per (date, className): the compound unique index
of attendanceSchema. -/
def uniqueKeys (l : Ledger) : Prop :=
  ∀ d c, (l.countP (keyMatch d c)) ≤ 1

/-- Bytewise lexicographic order on character lists, as MongoDB compares
BSON strings (our dates are ASCII "YYYY-MM-DD", where byte order and
code-point order agree). -/
def charListLe : List Char → List Char → Bool
  | [], _ => true
  | _ :: _, [] => false
  | a :: as, b :: bs =>
    if a.val < b.val then true
    else if b.val < a.val then false
    else charListLe as bs

/-- String comparison used by the `$gte`/`$lte` date-range query. -/
def strLe (a b : String) : Bool := charListLe a.data b.data

/-- The Attendance.find query of GET /reports/summary: className equal
and date in [fromD, toD], both ends inclusive. -/
def inRange (c fromD toD : String) (r : AttendanceRecord) : Bool :=
  r.className = c && strLe fromD r.date && strLe r.date toD

/-- One value of the studentStats object: name, present count, total
count. -/
structure StudentStat where
  name : String
  present : Nat
  total : Nat
  deriving Repr, DecidableEq

/-- The studentStats object: an association list keyed by the student id
string, in insertion order (as JS object keys are). -/
abbrev StatsMap := List (String × StudentStat)

/-- populate("entries.studentId"): resolve a stored studentId against the
students collection; an unresolvable reference populates to null (none). -/
def lookupStudent (students : List Student) (sid : String) : Option Student :=
  students.find? (fun s => s._id = sid)

/-- The per-entry accumulation body: create the stats slot on first
sight ({name, present: 0, total: 0}), then increment present when the
entry is present and always increment total. -/
def bump (stats : StatsMap) (sid name : String) (present : Bool) : StatsMap :=
  match stats with
  | [] => [(sid, ⟨name, if present then 1 else 0, 1⟩)]
  | (k, st) :: rest =>
    if k = sid then
      (k, ⟨st.name, st.present + (if present then 1 else 0), st.total + 1⟩) :: rest
    else (k, st) :: bump rest sid name present

/-- Accumulate one record's entries left to right. Dereferencing
e.studentId._id on an unresolved (null) reference throws, aborting the
whole aggregation (modelled as Except.error). -/
def processEntries (students : List Student) :
    List Entry → StatsMap → Except Unit StatsMap
  | [], stats => .ok stats
  | e :: rest, stats =>
    match lookupStudent students e.studentId with
    | none => .error ()
    | some s => processEntries students rest (bump stats s._id s.name e.present)

/-- records.forEach: accumulate every fetched record in order. -/
def processRecords (students : List Student) :
    List AttendanceRecord → StatsMap → Except Unit StatsMap
  | [], stats => .ok stats
  | r :: rs, stats =>
    match processEntries students r.entries stats with
    | .error u => .error u
    | .ok stats2 => processRecords students rs stats2

/-- How GET /reports/summary can fail: missing query parameter (400) or
an exception during aggregation (500). -/
inductive ReportError where
  | badRequest (msg : String)
  | internal
  deriving Repr, DecidableEq

/-- The report payload returned by GET /reports/summary. -/
structure Report where
  average : Rat
  perfectCount : Nat
  below75Count : Nat
  chronicAbsenceCount : Nat
  days : Nat
  totalStudentsTracked : Nat
  deriving Repr, DecidableEq

/-- Number.toFixed(1) followed by parseFloat: round to one decimal
place (ties away from zero; all our inputs are nonnegative, where that
agrees with Lean's round). -/
def round1 (x : Rat) : Rat := ((round (x * 10) : Int) : Rat) / 10

/-- The aggregate-derivation block of GET /reports/summary: from the
accumulated studentStats and the fetched record count, compute totals
over Object.values, the rounded average (0 when the denominator is 0),
and the three filter counts. -/
def summarize (stats : StatsMap) (days : Nat) : Report :=
  let vals := stats.map Prod.snd
  let totalPresent : Nat := vals.foldl (fun a s => a + s.present) 0
  let total : Nat := vals.foldl (fun a s => a + s.total) 0
  let average : Rat :=
    if 0 < total then round1 (((totalPresent : Rat) / (total : Rat)) * 100)
    else 0
  let perfectCount :=
    (vals.filter (fun s => s.present == s.total && decide (0 < s.total))).length
  let below75Count :=
    (vals.filter (fun s =>
      decide (0 < s.total) &&
      decide (((s.present : Rat) / (s.total : Rat)) * 100 < 75))).length
  let chronicAbsenceCount :=
    (vals.filter (fun s =>
      decide (0 < s.total) &&
      decide (((s.present : Rat) / (s.total : Rat)) * 100 < 50))).length
  ⟨average, perfectCount, below75Count, chronicAbsenceCount,
    days, stats.length⟩

/-- The GET /reports/summary handler: validate query params, fetch the
date-range slice of the ledger for the class, accumulate per-student
stats, and derive the aggregates. -/
def reportHandler (students : List Student) (l : Ledger)
    (className fromD toD : Option String) : Except ReportError Report :=
  if falsyStr className || falsyStr fromD || falsyStr toD then
    .error (.badRequest "className, from and to dates are required")
  else
    let c := className.getD ""
    let f := fromD.getD ""
    let t := toD.getD ""
    let records := l.filter (inRange c f t)
    let days := records.length
    match processRecords students records [] with
    | .error _ => .error .internal
    | .ok stats => .ok (summarize stats days)

/-- The keys of the studentStats object (Object.keys). -/
def statKeys (stats : StatsMap) : List String := stats.map Prod.fst

/-- Look up one student's stats slot by key. -/
def getStat (stats : StatsMap) (sid : String) : Option StudentStat :=
  (stats.find? (fun p => p.1 = sid)).map Prod.snd

/-- Whether a stored entry resolves (via populate) to the student with
id sid. -/
def resolvesTo (students : List Student) (sid : String) (e : Entry) : Bool :=
  match lookupStudent students e.studentId with
  | some s => s._id = sid
  | none => false

/-- Number of entries across the given records that resolve to sid; a
student appearing twice in one day's record is counted twice. -/
def entryCount (students : List Student) (sid : String)
    (rs : List AttendanceRecord) : Nat :=
  ((rs.map (fun r => r.entries)).flatten).countP (resolvesTo students sid)

/-- Number of present entries across the given records that resolve to
sid. -/
def presentEntryCount (students : List Student) (sid : String)
    (rs : List AttendanceRecord) : Nat :=
  ((rs.map (fun r => r.entries)).flatten).countP
    (fun e => resolvesTo students sid e && e.present)

/-- The total count held for sid (0 when sid is not tracked). -/
def totalOf (stats : StatsMap) (sid : String) : Nat :=
  match getStat stats sid with
  | some st => st.total
  | none => 0

/-- The present count held for sid (0 when sid is not tracked). -/
def presentOf (stats : StatsMap) (sid : String) : Nat :=
  match getStat stats sid with
  | some st => st.present
  | none => 0

/-- Roster for the aggregation example: two students S1 and S2. -/
def studentsC1 : List Student :=
  [⟨"S1", "Aarav", "Class 5-A"⟩, ⟨"S2", "Diya", "Class 5-A"⟩]

/-- Ledger for the aggregation example:
day1 {S1 present, S2 absent}, day2 {S1 present, S2 present},
day3 {S1 absent}. -/
def ledgerC1 : Ledger :=
  [⟨"2024-01-01", "Class 5-A", [⟨"S1", true, ""⟩, ⟨"S2", false, ""⟩]⟩,
   ⟨"2024-01-02", "Class 5-A", [⟨"S1", true, ""⟩, ⟨"S2", true, ""⟩]⟩,
   ⟨"2024-01-03", "Class 5-A", [⟨"S1", false, ""⟩]⟩]

/-- The studentStats the aggregation example accumulates:
S1 present=2,total=3 and S2 present=1,total=2. -/
def statsC1 : StatsMap :=
  [("S1", ⟨"Aarav", 2, 3⟩), ("S2", ⟨"Diya", 1, 2⟩)]

/-- Roster with a single student, for the dangling-reference example. -/
def studentsC5 : List Student := [⟨"S1", "Alice", "Class 5-A"⟩]

/-- Ledger whose one record holds an entry whose studentRef ("ghost")
resolves to no student. -/
def ledgerC5 : Ledger :=
  [⟨"2024-01-01", "Class 5-A", [⟨"ghost", true, ""⟩]⟩]

/-- Ledger whose single day's record mentions the same student twice. -/
def ledgerC10 : Ledger :=
  [⟨"2024-02-01", "Class 5-A", [⟨"S1", true, ""⟩, ⟨"S1", false, ""⟩]⟩]

end Attendance

namespace Attendance

theorem upsert_filter_eq (d c : String) (es : List Entry) (l : Ledger)
    (h : l.countP (keyMatch d c) ≤ 1) :
    (upsert d c es l).filter (keyMatch d c) = [⟨d, c, es⟩] := by
  have hk : keyMatch d c (⟨d, c, es⟩ : AttendanceRecord) = true := by
    simp [keyMatch]
  induction l with
  | nil =>
    simp [upsert, List.filter, hk]
  | cons r rs ih =>
    by_cases hr : keyMatch d c r = true
    · have hcount : rs.countP (keyMatch d c) = 0 := by
        rw [List.countP_cons_of_pos _ _ hr] at h
        omega
      have hfilter : rs.filter (keyMatch d c) = [] := by
        apply List.length_eq_zero.mp
        rw [← List.countP_eq_length_filter]
        exact hcount
      simp only [upsert, hr, if_true]
      rw [List.filter_cons_of_pos hk, hfilter]
    · rw [List.countP_cons_of_neg _ _ hr] at h
      simp only [upsert, hr, if_false, Bool.false_eq_true]
      rw [List.filter_cons_of_neg hr]
      exact ih h

theorem getStat_bump_same (stats : StatsMap) (k name : String) (p : Bool) :
    getStat (bump stats k name p) k = some (
      match getStat stats k with
      | none => ⟨name, if p then 1 else 0, 1⟩
      | some st => ⟨st.name, st.present + (if p then 1 else 0), st.total + 1⟩) := by
  induction stats with
  | nil => simp [bump, getStat, List.find?]
  | cons hd tl ih =>
    obtain ⟨k', st⟩ := hd
    by_cases h : k' = k
    · subst h
      simp [bump, getStat, List.find?]
    · simp only [bump, h, if_false]
      simp only [getStat, List.find?] at ih ⊢
      have hd : (decide (k' = k)) = false := by simp [h]
      simp only [hd]
      exact ih

theorem getStat_bump_other (stats : StatsMap) (k name : String) (p : Bool)
    (sid : String) (h : sid ≠ k) :
    getStat (bump stats k name p) sid = getStat stats sid := by
  induction stats with
  | nil =>
    have hne : (decide (k = sid)) = false := by
      simp
      intro hh
      exact h hh.symm
    simp [bump, getStat, List.find?, hne]
  | cons hd tl ih =>
    obtain ⟨k', st⟩ := hd
    by_cases hk : k' = k
    · subst hk
      have hne : (decide (k' = sid)) = false := by
        simp
        intro hh
        exact h hh.symm
      simp [bump, getStat, List.find?, hne]
    · by_cases hs : k' = sid
      · subst hs
        simp [bump, hk, getStat, List.find?]
      · have hne : (decide (k' = sid)) = false := by simp [hs]
        simp only [bump, hk, if_false, getStat, List.find?, hne] at ih ⊢
        exact ih

theorem totalOf_bump (stats : StatsMap) (k name : String) (p : Bool)
    (sid : String) :
    totalOf (bump stats k name p) sid =
      totalOf stats sid + (if k = sid then 1 else 0) := by
  by_cases h : k = sid
  · subst h
    rw [totalOf, getStat_bump_same]
    cases hg : getStat stats k <;> simp [totalOf, hg]
  · rw [totalOf, getStat_bump_other stats k name p sid (fun hh => h hh.symm)]
    simp [totalOf, h]

theorem presentOf_bump (stats : StatsMap) (k name : String) (p : Bool)
    (sid : String) :
    presentOf (bump stats k name p) sid =
      presentOf stats sid + (if k = sid ∧ p then 1 else 0) := by
  by_cases h : k = sid
  · subst h
    rw [presentOf, getStat_bump_same]
    cases hg : getStat stats k <;> cases p <;> simp [presentOf, hg]
  · rw [presentOf, getStat_bump_other stats k name p sid (fun hh => h hh.symm)]
    simp [presentOf, h]

theorem statKeys_bump (stats : StatsMap) (k name : String) (p : Bool) :
    statKeys (bump stats k name p) =
      if k ∈ statKeys stats then statKeys stats else statKeys stats ++ [k] := by
  induction stats with
  | nil => simp [bump, statKeys]
  | cons hd tl ih =>
    obtain ⟨k', st⟩ := hd
    by_cases h : k' = k
    · subst h
      simp [bump, statKeys]
    · have hne : k ≠ k' := fun hh => h hh.symm
      simp only [bump, h, if_false, statKeys, List.map_cons] at ih ⊢
      rw [ih]
      by_cases hm : k ∈ List.map Prod.fst tl
      · simp [hm, hne]
      · simp [hm, hne]

theorem statKeys_bump_nodup (stats : StatsMap) (k name : String) (p : Bool)
    (h : (statKeys stats).Nodup) :
    (statKeys (bump stats k name p)).Nodup := by
  rw [statKeys_bump]
  by_cases hm : k ∈ statKeys stats
  · simpa [hm] using h
  · simp [hm, List.nodup_append, h]

theorem bump_total_pos (stats : StatsMap) (k name : String) (p : Bool)
    (h : ∀ q ∈ stats, 0 < q.2.total) :
    ∀ q ∈ bump stats k name p, 0 < q.2.total := by
  induction stats with
  | nil =>
    intro q hq
    simp [bump] at hq
    subst hq
    simp
  | cons hd tl ih =>
    obtain ⟨k', st⟩ := hd
    intro q hq
    by_cases hk : k' = k
    · subst hk
      simp only [bump, if_pos rfl] at hq
      rcases List.mem_cons.mp hq with h1 | h2
      · subst h1; simp
      · exact h q (List.mem_cons_of_mem _ h2)
    · simp only [bump, hk, if_false] at hq
      rcases List.mem_cons.mp hq with h1 | h2
      · subst h1
        exact h _ (List.mem_cons_self _ _)
      · exact ih (fun q hq => h q (List.mem_cons_of_mem _ hq)) q h2

theorem getStat_isSome_iff (stats : StatsMap) (sid : String) :
    (getStat stats sid).isSome = true ↔ sid ∈ statKeys stats := by
  induction stats with
  | nil => simp [getStat, statKeys, List.find?]
  | cons hd tl ih =>
    obtain ⟨k, st⟩ := hd
    by_cases h : k = sid
    · subst h
      simp [getStat, statKeys, List.find?]
    · have hne : (decide (k = sid)) = false := by simp [h]
      simp only [getStat, List.find?, hne, statKeys, List.map_cons,
        List.mem_cons] at ih ⊢
      rw [ih]
      constructor
      · exact Or.inr
      · rintro (h1 | h2)
        · exact absurd h1.symm h
        · exact h2

theorem processEntries_ok_resolves {students : List Student}
    {es : List Entry} {stats stats' : StatsMap}
    (h : processEntries students es stats = .ok stats') :
    ∀ e ∈ es, (lookupStudent students e.studentId).isSome := by
  induction es generalizing stats with
  | nil => simp
  | cons e rest ih =>
    intro e' he'
    rw [processEntries] at h
    cases hl : lookupStudent students e.studentId with
    | none => rw [hl] at h; exact absurd h (by simp)
    | some s =>
      rw [hl] at h
      rcases List.mem_cons.mp he' with h1 | h2
      · subst h1; simp [hl]
      · exact ih h e' h2

theorem processEntries_totalOf {students : List Student}
    {es : List Entry} {stats stats' : StatsMap}
    (h : processEntries students es stats = .ok stats') (sid : String) :
    totalOf stats' sid =
      totalOf stats sid + es.countP (resolvesTo students sid) := by
  induction es generalizing stats with
  | nil =>
    rw [processEntries] at h
    cases h
    simp
  | cons e rest ih =>
    rw [processEntries] at h
    cases hl : lookupStudent students e.studentId with
    | none => rw [hl] at h; exact absurd h (by simp)
    | some s =>
      rw [hl] at h
      have hrec := ih h
      rw [hrec, totalOf_bump]
      have hres : resolvesTo students sid e = decide (s._id = sid) := by
        rw [resolvesTo, hl]
      rw [List.countP_cons, hres]
      by_cases hk : s._id = sid <;> simp [hk] ; omega

theorem processEntries_presentOf {students : List Student}
    {es : List Entry} {stats stats' : StatsMap}
    (h : processEntries students es stats = .ok stats') (sid : String) :
    presentOf stats' sid =
      presentOf stats sid +
        es.countP (fun e => resolvesTo students sid e && e.present) := by
  induction es generalizing stats with
  | nil =>
    rw [processEntries] at h
    cases h
    simp
  | cons e rest ih =>
    rw [processEntries] at h
    cases hl : lookupStudent students e.studentId with
    | none => rw [hl] at h; exact absurd h (by simp)
    | some s =>
      rw [hl] at h
      have hrec := ih h
      rw [hrec, presentOf_bump]
      have hres : resolvesTo students sid e = decide (s._id = sid) := by
        rw [resolvesTo, hl]
      rw [List.countP_cons, hres]
      by_cases hk : s._id = sid <;> cases hp : e.present <;>
        simp [hk, hp] ; omega

theorem processEntries_mem {students : List Student}
    {es : List Entry} {stats stats' : StatsMap}
    (h : processEntries students es stats = .ok stats') (sid : String) :
    sid ∈ statKeys stats' ↔
      sid ∈ statKeys stats ∨ 0 < es.countP (resolvesTo students sid) := by
  induction es generalizing stats with
  | nil =>
    rw [processEntries] at h
    cases h
    simp
  | cons e rest ih =>
    rw [processEntries] at h
    cases hl : lookupStudent students e.studentId with
    | none => rw [hl] at h; exact absurd h (by simp)
    | some s =>
      rw [hl] at h
      have hrec := ih h
      have hres : resolvesTo students sid e = decide (s._id = sid) := by
        rw [resolvesTo, hl]
      rw [hrec, List.countP_cons, hres, statKeys_bump]
      by_cases hk : s._id = sid
      · subst hk
        by_cases hm : s._id ∈ statKeys stats <;> simp [hm]
      · have hdec : (decide (s._id = sid)) = false := by simp [hk]
        have hnsid : sid ≠ s._id := fun hh => hk hh.symm
        rw [hdec]
        by_cases hm : s._id ∈ statKeys stats
        · simp [hm]
        · simp [hm, List.mem_append, List.mem_singleton, hnsid]

theorem processEntries_total_pos {students : List Student}
    {es : List Entry} {stats stats' : StatsMap}
    (h : processEntries students es stats = .ok stats')
    (hp : ∀ q ∈ stats, 0 < q.2.total) :
    ∀ q ∈ stats', 0 < q.2.total := by
  induction es generalizing stats with
  | nil =>
    rw [processEntries] at h
    cases h
    exact hp
  | cons e rest ih =>
    rw [processEntries] at h
    cases hl : lookupStudent students e.studentId with
    | none => rw [hl] at h; exact absurd h (by simp)
    | some s =>
      rw [hl] at h
      exact ih h (bump_total_pos stats s._id s.name e.present hp)

theorem processEntries_nodup {students : List Student}
    {es : List Entry} {stats stats' : StatsMap}
    (h : processEntries students es stats = .ok stats')
    (hn : (statKeys stats).Nodup) :
    (statKeys stats').Nodup := by
  induction es generalizing stats with
  | nil =>
    rw [processEntries] at h
    cases h
    exact hn
  | cons e rest ih =>
    rw [processEntries] at h
    cases hl : lookupStudent students e.studentId with
    | none => rw [hl] at h; exact absurd h (by simp)
    | some s =>
      rw [hl] at h
      exact ih h (statKeys_bump_nodup stats s._id s.name e.present hn)

theorem processEntries_append (students : List Student)
    (xs ys : List Entry) (stats : StatsMap) :
    processEntries students (xs ++ ys) stats =
      match processEntries students xs stats with
      | .error u => .error u
      | .ok st2 => processEntries students ys st2 := by
  induction xs generalizing stats with
  | nil => rw [List.nil_append, processEntries]
  | cons e rest ih =>
    rw [List.cons_append, processEntries, processEntries]
    cases hl : lookupStudent students e.studentId with
    | none => rfl
    | some s => exact ih (bump stats s._id s.name e.present)

theorem processRecords_eq_flat (students : List Student)
    (rs : List AttendanceRecord) (stats : StatsMap) :
    processRecords students rs stats =
      processEntries students ((rs.map (fun r => r.entries)).flatten) stats := by
  induction rs generalizing stats with
  | nil => rfl
  | cons r rest ih =>
    rw [processRecords, List.map_cons, List.flatten_cons, processEntries_append]
    cases hp : processEntries students r.entries stats with
    | error u => rfl
    | ok st2 => exact ih st2

theorem processRecords_totalOf {students : List Student}
    {rs : List AttendanceRecord} {stats' : StatsMap}
    (h : processRecords students rs [] = .ok stats') (sid : String) :
    totalOf stats' sid = entryCount students sid rs := by
  rw [processRecords_eq_flat] at h
  have hh := processEntries_totalOf h sid
  rw [hh, entryCount]
  simp [totalOf, getStat, List.find?]

theorem processRecords_presentOf {students : List Student}
    {rs : List AttendanceRecord} {stats' : StatsMap}
    (h : processRecords students rs [] = .ok stats') (sid : String) :
    presentOf stats' sid = presentEntryCount students sid rs := by
  rw [processRecords_eq_flat] at h
  have hh := processEntries_presentOf h sid
  rw [hh, presentEntryCount]
  simp [presentOf, getStat, List.find?]

theorem processRecords_mem {students : List Student}
    {rs : List AttendanceRecord} {stats' : StatsMap}
    (h : processRecords students rs [] = .ok stats') (sid : String) :
    sid ∈ statKeys stats' ↔ 0 < entryCount students sid rs := by
  rw [processRecords_eq_flat] at h
  have hh := processEntries_mem h sid
  rw [hh, entryCount]
  simp [statKeys]

theorem processRecords_total_pos {students : List Student}
    {rs : List AttendanceRecord} {stats' : StatsMap}
    (h : processRecords students rs [] = .ok stats') :
    ∀ q ∈ stats', 0 < q.2.total := by
  rw [processRecords_eq_flat] at h
  exact processEntries_total_pos h (by simp)

theorem processRecords_nodup {students : List Student}
    {rs : List AttendanceRecord} {stats' : StatsMap}
    (h : processRecords students rs [] = .ok stats') :
    (statKeys stats').Nodup := by
  rw [processRecords_eq_flat] at h
  exact processEntries_nodup h (by simp [statKeys])

theorem processRecords_ok_resolves {students : List Student}
    {rs : List AttendanceRecord} {stats' : StatsMap}
    (h : processRecords students rs [] = .ok stats') :
    ∀ r ∈ rs, ∀ e ∈ r.entries, (lookupStudent students e.studentId).isSome := by
  rw [processRecords_eq_flat] at h
  intro r hr e he
  apply processEntries_ok_resolves h
  rw [List.mem_flatten]
  exact ⟨r.entries, List.mem_map.mpr ⟨r, hr, rfl⟩, he⟩

theorem reportHandler_ok_elim {students : List Student} {l : Ledger}
    {c f t : String} {rep : Report}
    (h : reportHandler students l (some c) (some f) (some t) = .ok rep) :
    ∃ stats, processRecords students (l.filter (inRange c f t)) [] = .ok stats ∧
      rep = summarize stats (l.filter (inRange c f t)).length := by
  rw [reportHandler] at h
  by_cases hif :
      (falsyStr (some c) || falsyStr (some f) || falsyStr (some t)) = true
  · rw [if_pos hif] at h
    exact absurd h (by simp)
  · rw [if_neg hif] at h
    simp only [Option.getD_some] at h
    cases hp : processRecords students (l.filter (inRange c f t)) [] with
    | error u => rw [hp] at h; exact absurd h (by simp)
    | ok stats =>
      rw [hp] at h
      refine ⟨stats, rfl, ?_⟩
      cases h
      rfl

theorem summarize_days (stats : StatsMap) (days : Nat) :
    (summarize stats days).days = days := rfl

theorem summarize_tracked (stats : StatsMap) (days : Nat) :
    (summarize stats days).totalStudentsTracked = stats.length := rfl

theorem summarize_perfect (stats : StatsMap) (days : Nat) :
    (summarize stats days).perfectCount =
      ((stats.map Prod.snd).filter
        (fun s => s.present == s.total && decide (0 < s.total))).length := rfl

theorem summarize_below75 (stats : StatsMap) (days : Nat) :
    (summarize stats days).below75Count =
      ((stats.map Prod.snd).filter
        (fun s => decide (0 < s.total) &&
          decide (((s.present : Rat) / (s.total : Rat)) * 100 < 75))).length := rfl

theorem summarize_chronic (stats : StatsMap) (days : Nat) :
    (summarize stats days).chronicAbsenceCount =
      ((stats.map Prod.snd).filter
        (fun s => decide (0 < s.total) &&
          decide (((s.present : Rat) / (s.total : Rat)) * 100 < 50))).length := rfl

theorem summarize_average (stats : StatsMap) (days : Nat) :
    (summarize stats days).average =
      (if 0 < (stats.map Prod.snd).foldl (fun a s => a + s.total) 0 then
        round1 ((((stats.map Prod.snd).foldl (fun a s => a + s.present) 0 : Nat) : Rat) /
          (((stats.map Prod.snd).foldl (fun a s => a + s.total) 0 : Nat) : Rat) * 100)
      else 0) := rfl

theorem foldl_total_eq_sum (l : List StudentStat) (n : Nat) :
    l.foldl (fun a s => a + s.total) n = n + (l.map (fun s => s.total)).sum := by
  induction l generalizing n with
  | nil => simp
  | cons x xs ih =>
    rw [List.foldl_cons, ih, List.map_cons, List.sum_cons]
    omega

theorem foldl_present_eq_sum (l : List StudentStat) (n : Nat) :
    l.foldl (fun a s => a + s.present) n =
      n + (l.map (fun s => s.present)).sum := by
  induction l generalizing n with
  | nil => simp
  | cons x xs ih =>
    rw [List.foldl_cons, ih, List.map_cons, List.sum_cons]
    omega

/-- C2: for every key (date, className), calling mark with entries E1 and
then with entries E2 leaves exactly one AttendanceRecord for that key,
whose entries are exactly E2's payload (E1's entries are replaced, not
merged); with E1 = E2 this is the idempotent-mark case. -/
theorem mark_replace_not_merge (d c : String) (E1 E2 : List RawEntry)
    (l : Ledger) (hd : d ≠ "") (hc : c ≠ "") (hu : uniqueKeys l)
    (h1 : E1.all validEntry = true) (h2 : E2.all validEntry = true) :
    ((markHandler (some d) (some c) (some E2)
        (markHandler (some d) (some c) (some E1) l).2).2.filter
      (keyMatch d c)) = [⟨d, c, E2.map toEntry⟩] := by
  have hm1 : (markHandler (some d) (some c) (some E1) l).2 =
      upsert d c (E1.map toEntry) l := by
    simp [markHandler, falsyStr, hd, hc, h1]
  have hf1 : (upsert d c (E1.map toEntry) l).filter (keyMatch d c) =
      [⟨d, c, E1.map toEntry⟩] :=
    upsert_filter_eq _ _ _ _ (hu d c)
  have hcount : (upsert d c (E1.map toEntry) l).countP (keyMatch d c) ≤ 1 := by
    rw [List.countP_eq_length_filter, hf1]
    simp
  have hm2 : (markHandler (some d) (some c) (some E2)
      (upsert d c (E1.map toEntry) l)).2 =
      upsert d c (E2.map toEntry) (upsert d c (E1.map toEntry) l) := by
    simp [markHandler, falsyStr, hd, hc, h2]
  rw [hm1, hm2]
  exact upsert_filter_eq _ _ _ _ hcount

/-- C2 witness: marking S1's entries then S2's entries for the same key
leaves exactly the record with S2's payload. -/
theorem mark_replace_not_merge_witness :
    ((markHandler (some "2024-01-01") (some "Class 5-A")
        (some [⟨some "S2", some false, none⟩])
        (markHandler (some "2024-01-01") (some "Class 5-A")
          (some [⟨some "S1", some true, none⟩]) []).2).2.filter
      (keyMatch "2024-01-01" "Class 5-A")) =
    [⟨"2024-01-01", "Class 5-A", [⟨"S2", false, ""⟩]⟩] :=
  mark_replace_not_merge "2024-01-01" "Class 5-A"
    [⟨some "S1", some true, none⟩] [⟨some "S2", some false, none⟩] []
    (by decide) (by decide) (fun d c => by simp) (by decide) (by decide)

/-- C3: a mark call containing a malformed entry (missing studentRef or
non-boolean present flag) is rejected as a 400 validation failure and
the ledger is unchanged, including for well-formed entries of the same
batch. -/
theorem mark_malformed_rejected (d c : String) (es : List RawEntry)
    (l : Ledger) (h : ∃ e ∈ es, validEntry e = false) :
    (markHandler (some d) (some c) (some es) l).1.isBadRequest ∧
    (markHandler (some d) (some c) (some es) l).2 = l := by
  have hall : es.all validEntry = false := by
    cases hcase : es.all validEntry
    · rfl
    · exfalso
      obtain ⟨e, he, hv⟩ := h
      have := List.all_eq_true.mp hcase e he
      rw [hv] at this
      exact Bool.false_ne_true this
  by_cases hif :
      (falsyStr (some d) || falsyStr (some c) ||
        (some es : Option (List RawEntry)).isNone) = true
  · have hm : markHandler (some d) (some c) (some es) l =
        (.badRequest "Date, className and entries are required", l) := by
      rw [markHandler, if_pos hif]
    rw [hm]
    exact ⟨trivial, rfl⟩
  · have hm : markHandler (some d) (some c) (some es) l =
        (.badRequest "Invalid entry format", l) := by
      rw [markHandler, if_neg hif]
      simp only [Option.getD_some, hall, Bool.false_eq_true, if_false]
    rw [hm]
    exact ⟨trivial, rfl⟩

/-- C3 witness: a batch with one well-formed entry and one entry whose
present flag is not a boolean is rejected whole, writing nothing. -/
theorem mark_malformed_rejected_witness :
    (markHandler (some "2024-01-01") (some "Class 5-A")
      (some [⟨some "S1", some true, none⟩, ⟨some "S2", none, none⟩])
      []).1.isBadRequest ∧
    (markHandler (some "2024-01-01") (some "Class 5-A")
      (some [⟨some "S1", some true, none⟩, ⟨some "S2", none, none⟩])
      []).2 = [] :=
  mark_malformed_rejected "2024-01-01" "Class 5-A"
    [⟨some "S1", some true, none⟩, ⟨some "S2", none, none⟩] []
    ⟨⟨some "S2", none, none⟩, by simp, by decide⟩

/-- C4 counterexample: a mark call with an empty entries array is not
rejected (an empty array is truthy in JS and the validation loop is
vacuous): it returns ok and creates a record with empty entries, so the
claim "the call fails as a validation error and no AttendanceRecord is
created or modified" is false. -/
theorem mark_empty_entries_counterexample :
    (markHandler (some "2024-01-01") (some "Class 5-A") (some []) []).1 =
      MarkResult.ok ∧
    (markHandler (some "2024-01-01") (some "Class 5-A") (some []) []).2 =
      [⟨"2024-01-01", "Class 5-A", []⟩] := by
  decide

/-- C4 amended: a mark call whose entries argument is an empty sequence
(with non-empty date and className) succeeds and upserts the record for
the key with an empty entries list; only an absent entries field is a
validation error. -/
theorem mark_empty_entries_amended (d c : String) (l : Ledger)
    (hd : d ≠ "") (hc : c ≠ "") (hu : uniqueKeys l) :
    (markHandler (some d) (some c) (some []) l).1 = MarkResult.ok ∧
    ((markHandler (some d) (some c) (some []) l).2.filter (keyMatch d c)) =
      [⟨d, c, []⟩] := by
  have hm : markHandler (some d) (some c) (some ([] : List RawEntry)) l =
      (.ok, upsert d c [] l) := by
    simp [markHandler, falsyStr, hd, hc]
  rw [hm]
  exact ⟨rfl, upsert_filter_eq _ _ _ _ (hu d c)⟩

/-- C4 amended witness: marking with an empty entries array on an empty
ledger succeeds and stores an entries-less record. -/
theorem mark_empty_entries_amended_witness :
    (markHandler (some "2024-06-01") (some "Class 6-B") (some []) []).1 =
      MarkResult.ok ∧
    ((markHandler (some "2024-06-01") (some "Class 6-B") (some []) []).2.filter
      (keyMatch "2024-06-01" "Class 6-B")) = [⟨"2024-06-01", "Class 6-B", []⟩] :=
  mark_empty_entries_amended "2024-06-01" "Class 6-B" []
    (by decide) (by decide) (fun d c => by simp)

/-- C1 counterexample: for the stored records day1 {S1 present, S2
absent}, day2 {S1 present, S2 present}, day3 {S1 absent}, the report
does NOT return chronicAbsenceCount = 1: S2 sits at exactly 50% and the
code counts only strictly-below-50% students, so the count is 0. -/
theorem report_example_counterexample :
    (reportHandler studentsC1 ledgerC1 (some "Class 5-A") (some "2024-01-01")
      (some "2024-01-03")).map Report.chronicAbsenceCount ≠ Except.ok 1 := by
  have h : reportHandler studentsC1 ledgerC1 (some "Class 5-A")
      (some "2024-01-01") (some "2024-01-03") = .ok (summarize statsC1 3) := by
    rfl
  rw [h]
  have h2 : (summarize statsC1 3).chronicAbsenceCount = 0 := by
    norm_num [summarize_chronic, statsC1, List.filter_cons, List.filter_nil,
      decide_eq_true_eq, Bool.and_eq_true]
  simp [Except.map, h2]

/-- C1 amended: for the stored records day1 {S1 present, S2 absent},
day2 {S1 present, S2 present}, day3 {S1 absent}, the report for a range
covering all three days returns average = 60.0, perfectCount = 0,
below75Count = 2 and chronicAbsenceCount = 0, with per-student tallies
S1 present=2,total=3 and S2 present=1,total=2. -/
theorem report_example_amended :
    reportHandler studentsC1 ledgerC1 (some "Class 5-A") (some "2024-01-01")
      (some "2024-01-03") = .ok ⟨60, 0, 2, 0, 3, 2⟩ ∧
    processRecords studentsC1
      (ledgerC1.filter (inRange "Class 5-A" "2024-01-01" "2024-01-03")) [] =
      .ok statsC1 := by
  constructor
  · have h : reportHandler studentsC1 ledgerC1 (some "Class 5-A")
        (some "2024-01-01") (some "2024-01-03") = .ok (summarize statsC1 3) := by
      rfl
    rw [h]
    have h2 : summarize statsC1 3 = ⟨60, 0, 2, 0, 3, 2⟩ := by
      norm_num [summarize, statsC1, List.filter_cons, List.filter_nil,
        List.foldl, round1, round_eq, decide_eq_true_eq, Bool.and_eq_true,
        beq_iff_eq]
    rw [h2]
  · rfl

/-- C5 counterexample: a report over a record holding an entry whose
studentRef resolves to no student does not succeed: dereferencing the
null populated reference throws and the handler answers 500, so the
claim "the aggregation still succeeds" is false. -/
theorem report_dangling_ref_counterexample :
    reportHandler studentsC5 ledgerC5 (some "Class 5-A") (some "2024-01-01")
      (some "2024-01-02") = .error .internal := by
  rfl

/-- C5 amended: whenever some fetched record holds an entry whose
studentRef resolves to no student, the aggregation fails with an
internal error (500); unresolvable entries are not skipped or flagged. -/
theorem report_dangling_ref_amended (students : List Student) (l : Ledger)
    (c f t : String) (hc : c ≠ "") (hf : f ≠ "") (ht : t ≠ "")
    (h : ∃ r ∈ l.filter (inRange c f t), ∃ e ∈ r.entries,
      lookupStudent students e.studentId = none) :
    reportHandler students l (some c) (some f) (some t) = .error .internal := by
  have hif : (falsyStr (some c) || falsyStr (some f) || falsyStr (some t)) =
      false := by
    simp [falsyStr, hc, hf, ht]
  have herr : ∃ u, processRecords students (l.filter (inRange c f t)) [] =
      .error u := by
    cases hp : processRecords students (l.filter (inRange c f t)) [] with
    | error u => exact ⟨u, rfl⟩
    | ok stats =>
      exfalso
      obtain ⟨r, hr, e, he, hnone⟩ := h
      have hs := processRecords_ok_resolves hp r hr e he
      rw [hnone] at hs
      exact absurd hs (by simp)
  obtain ⟨u, hu⟩ := herr
  rw [reportHandler]
  simp only [hif, Bool.false_eq_true, if_false, Option.getD_some, hu]

/-- C5 amended witness: the concrete dangling-reference ledger makes the
report fail with an internal error. -/
theorem report_dangling_ref_amended_witness :
    reportHandler studentsC5 ledgerC5 (some "Class 5-A") (some "2024-01-01")
      (some "2024-01-02") = .error .internal :=
  report_dangling_ref_amended studentsC5 ledgerC5 "Class 5-A" "2024-01-01"
    "2024-01-02" (by decide) (by decide) (by decide)
    ⟨⟨"2024-01-01", "Class 5-A", [⟨"ghost", true, ""⟩]⟩, by decide,
      ⟨"ghost", true, ""⟩, by decide, by decide⟩

/-- C6: in every successful report, average equals (sum of per-student
present counts / sum of per-student total counts) × 100 rounded to one
decimal place when the denominator is positive, and 0 when the sum of
total counts is 0. -/
theorem report_average_formula (students : List Student) (l : Ledger)
    (c f t : String) (rep : Report) (stats : StatsMap)
    (hrep : reportHandler students l (some c) (some f) (some t) = .ok rep)
    (hstats : processRecords students (l.filter (inRange c f t)) [] =
      .ok stats) :
    rep.average =
      if 0 < (stats.map (fun p => p.2.total)).sum then
        round1 ((((stats.map (fun p => p.2.present)).sum : Rat) /
          ((stats.map (fun p => p.2.total)).sum : Rat)) * 100)
      else 0 := by
  obtain ⟨stats2, hp, hrepeq⟩ := reportHandler_ok_elim hrep
  rw [hstats] at hp
  injection hp with hp
  subst hp
  rw [hrepeq, summarize_average, foldl_total_eq_sum, foldl_present_eq_sum]
  simp [List.map_map, Function.comp_def]

/-- C6 witness: the formula evaluated on the aggregation example. -/
theorem report_average_formula_witness :
    (summarize statsC1 3).average =
      if 0 < (statsC1.map (fun p => p.2.total)).sum then
        round1 ((((statsC1.map (fun p => p.2.present)).sum : Rat) /
          ((statsC1.map (fun p => p.2.total)).sum : Rat)) * 100)
      else 0 :=
  report_average_formula studentsC1 ledgerC1 "Class 5-A" "2024-01-01"
    "2024-01-03" (summarize statsC1 3) statsC1 (by rfl) (by rfl)

/-- C7: in every successful report, a student is counted in perfectCount
exactly when their present count equals their total count and the total
is positive; every tracked student has positive total (so the positivity
condition is redundant), and a student with zero entries in the range is
not tracked at all, hence counted in none of the three counts. -/
theorem report_perfect_boundary (students : List Student) (l : Ledger)
    (c f t : String) (rep : Report) (stats : StatsMap)
    (hrep : reportHandler students l (some c) (some f) (some t) = .ok rep)
    (hstats : processRecords students (l.filter (inRange c f t)) [] =
      .ok stats) :
    rep.perfectCount =
      stats.countP (fun p =>
        decide (p.2.present = p.2.total) && decide (0 < p.2.total)) ∧
    rep.perfectCount =
      stats.countP (fun p => decide (p.2.present = p.2.total)) ∧
    (∀ sid, entryCount students sid (l.filter (inRange c f t)) = 0 →
      sid ∉ statKeys stats) := by
  obtain ⟨stats2, hp, hrepeq⟩ := reportHandler_ok_elim hrep
  rw [hstats] at hp
  injection hp with hp
  subst hp
  have hpos := processRecords_total_pos hstats
  have hcount1 : rep.perfectCount =
      stats.countP (fun p =>
        decide (p.2.present = p.2.total) && decide (0 < p.2.total)) := by
    rw [hrepeq, summarize_perfect, ← List.countP_eq_length_filter,
      List.countP_map]
    apply List.countP_congr
    intro p _
    by_cases h : p.2.present = p.2.total <;> simp [h, Function.comp_def]
  refine ⟨hcount1, ?_, ?_⟩
  · rw [hcount1]
    apply List.countP_congr
    intro p hps
    have := hpos p hps
    simp [this]
  · intro sid hzero
    rw [processRecords_mem hstats sid, hzero]
    simp

/-- C7 witness: the perfect-count characterisation on the aggregation
example. -/
theorem report_perfect_boundary_witness :
    (summarize statsC1 3).perfectCount =
      statsC1.countP (fun p =>
        decide (p.2.present = p.2.total) && decide (0 < p.2.total)) ∧
    (summarize statsC1 3).perfectCount =
      statsC1.countP (fun p => decide (p.2.present = p.2.total)) ∧
    (∀ sid, entryCount studentsC1 sid
        (ledgerC1.filter (inRange "Class 5-A" "2024-01-01" "2024-01-03")) = 0 →
      sid ∉ statKeys statsC1) :=
  report_perfect_boundary studentsC1 ledgerC1 "Class 5-A" "2024-01-01"
    "2024-01-03" (summarize statsC1 3) statsC1 (by rfl) (by rfl)

/-- C8: in every successful report, days equals the number of records of
that class with date inside [from, to] under inclusive lexicographic
string comparison; days with no record contribute nothing. -/
theorem report_days_eq_range_count (students : List Student) (l : Ledger)
    (c f t : String) (rep : Report)
    (h : reportHandler students l (some c) (some f) (some t) = .ok rep) :
    rep.days = (l.filter (inRange c f t)).length := by
  obtain ⟨stats, hp, hrep⟩ := reportHandler_ok_elim h
  rw [hrep, summarize_days]

/-- C8 witness: days of the aggregation example equals the number of
in-range records. -/
theorem report_days_eq_range_count_witness :
    (summarize statsC1 3).days =
      (ledgerC1.filter (inRange "Class 5-A" "2024-01-01" "2024-01-03")).length :=
  report_days_eq_range_count studentsC1 ledgerC1 "Class 5-A" "2024-01-01"
    "2024-01-03" (summarize statsC1 3) (by rfl)

/-- C9: in every successful report, totalStudentsTracked equals the
number of accumulated per-student slots; the keys are distinct, every
tracked student has a positive total, and a student is tracked exactly
when they have at least one entry in range. -/
theorem report_tracked_distinct (students : List Student) (l : Ledger)
    (c f t : String) (rep : Report) (stats : StatsMap)
    (hrep : reportHandler students l (some c) (some f) (some t) = .ok rep)
    (hstats : processRecords students (l.filter (inRange c f t)) [] =
      .ok stats) :
    rep.totalStudentsTracked = stats.length ∧
    (statKeys stats).Nodup ∧
    (∀ p ∈ stats, 0 < p.2.total) ∧
    (∀ sid, sid ∈ statKeys stats ↔
      0 < entryCount students sid (l.filter (inRange c f t))) := by
  obtain ⟨stats2, hp, hrepeq⟩ := reportHandler_ok_elim hrep
  rw [hstats] at hp
  injection hp with hp
  subst hp
  exact ⟨by rw [hrepeq, summarize_tracked], processRecords_nodup hstats,
    processRecords_total_pos hstats,
    fun sid => processRecords_mem hstats sid⟩

/-- C9 witness: the tracked-students characterisation on the aggregation
example. -/
theorem report_tracked_distinct_witness :
    (summarize statsC1 3).totalStudentsTracked = statsC1.length ∧
    (statKeys statsC1).Nodup ∧
    (∀ p ∈ statsC1, 0 < p.2.total) ∧
    (∀ sid, sid ∈ statKeys statsC1 ↔
      0 < entryCount studentsC1 sid
        (ledgerC1.filter (inRange "Class 5-A" "2024-01-01" "2024-01-03"))) :=
  report_tracked_distinct studentsC1 ledgerC1 "Class 5-A" "2024-01-01"
    "2024-01-03" (summarize statsC1 3) statsC1 (by rfl) (by rfl)

/-- C10: every entry contributes separately to its student's tallies: a
tracked student's total equals the number of entries across the fetched
records that resolve to them (duplicates within one day's record each
count), and present equals the number of such entries with
present = true; in particular a student's total can exceed the number of
records. -/
theorem stats_count_every_entry (students : List Student)
    (rs : List AttendanceRecord) (stats : StatsMap)
    (h : processRecords students rs [] = .ok stats) :
    ∀ sid st, getStat stats sid = some st →
      st.total = entryCount students sid rs ∧
      st.present = presentEntryCount students sid rs := by
  intro sid st hst
  have h1 := processRecords_totalOf h sid
  have h2 := processRecords_presentOf h sid
  simp only [totalOf, hst] at h1
  simp only [presentOf, hst] at h2
  exact ⟨h1, h2⟩

/-- C10 witness: one record naming S1 twice gives S1 total 2 and
present 1, and the total exceeds the record count. -/
theorem stats_count_every_entry_witness :
    ((⟨"Alice", 1, 2⟩ : StudentStat).total =
        entryCount studentsC5 "S1" ledgerC10 ∧
      (⟨"Alice", 1, 2⟩ : StudentStat).present =
        presentEntryCount studentsC5 "S1" ledgerC10) ∧
    ledgerC10.length < (⟨"Alice", 1, 2⟩ : StudentStat).total :=
  ⟨stats_count_every_entry studentsC5 ledgerC10
      [("S1", ⟨"Alice", 1, 2⟩)] (by rfl) "S1" ⟨"Alice", 1, 2⟩ (by rfl),
    by decide⟩

end Attendance
